import Mathlib

/-!
Verification of the metadata extraction and filename composition core of the
bocrren repository (`app/services.py`).

The Python code is shallowly embedded: each regular expression used by the
source is realised as a priority-ordered backtracking matcher over `List Char`
(the same leftmost / first-alternative / greedy semantics Python's `re.search`
uses for these patterns), Python `None`-or-string variables become
`Option String` with Python truthiness made explicit, and the `try/except`
blocks around the user-supplied search terms are modelled with `Except`.
Character classes (`\d`, `\s`, case folding) are modelled over their ASCII
fragment, matching how the source's patterns are used on OCR output.
-/

set_option autoImplicit false

namespace Bocrren

/-! ## Python string primitives -/

/-- Python truthiness of a `None`-or-string value: `None` and `""` are falsy. -/
def pyTruthy : Option String → Bool
  | none => false
  | some s => s ≠ ""

/-- ASCII digit, modelling `\d` in the source's patterns. -/
def isAsciiDigit (c : Char) : Bool := '0' ≤ c && c ≤ '9'

/-- ASCII letter. -/
def isAsciiAlpha (c : Char) : Bool := ('a' ≤ c && c ≤ 'z') || ('A' ≤ c && c ≤ 'Z')

/-- ASCII alphanumeric, modelling `[a-zA-Z0-9]`. -/
def isAlnum (c : Char) : Bool := isAsciiAlpha c || isAsciiDigit c

/-- Characters of `[a-zA-Z0-9-]`, the token class of the invoice/reference
patterns and the custom-match class. -/
def isTokCh (c : Char) : Bool := isAlnum c || c = '-'

/-- Python `\s` (ASCII fragment): space, tab, newline, vertical tab, form feed,
carriage return. -/
def isPyWs (c : Char) : Bool :=
  c = ' ' || c = '\t' || c = '\n' || c = '\x0b' || c = '\x0c' || c = '\r'

/-- Python `str.strip()` on a character list: drop whitespace from both ends. -/
def pyStripL (l : List Char) : List Char :=
  ((l.dropWhile isPyWs).reverse.dropWhile isPyWs).reverse

/-- Python `str.strip()` on a string. -/
def pyStripS (s : String) : String := String.mk (pyStripL s.toList)

/-- Python `str.strip('_')`: drop underscores from both ends. -/
def pyStripUnderscoreL (l : List Char) : List Char :=
  ((l.dropWhile (fun c => c = '_')).reverse.dropWhile (fun c => c = '_')).reverse

/-- Python `str.isdigit()` (ASCII fragment): non-empty and all digits. -/
def pyIsdigit (s : String) : Bool := !s.toList.isEmpty && s.toList.all Char.isDigit

/-- Python `text.split('\n')`: splits on every newline, keeping empty pieces;
the result is never the empty list (`"".split('\n') == ['']`). -/
def splitNl : List Char → List (List Char)
  | [] => [[]]
  | c :: rest =>
    if c = '\n' then [] :: splitNl rest
    else
      match splitNl rest with
      | h :: t => (c :: h) :: t
      | [] => [[c]]

theorem splitNl_ne_nil : ∀ l : List Char, splitNl l ≠ [] := by
  intro l
  induction l with
  | nil => simp [splitNl]
  | cons c rest ih =>
    simp only [splitNl]
    split
    · simp
    · split
      · simp
      · simp

/-! ## A priority-ordered backtracking regex engine

`Re α` is a matcher that, run at a fixed start position, returns the list of
all parses `(result, remaining input)` in the order Python's backtracking
engine would try them; the head of the list at the leftmost succeeding start
position is exactly the match `re.search` produces. -/

/-- A matcher producing parses in backtracking priority order. -/
def Re (α : Type) : Type := List Char → List (α × List Char)

/-- Succeed without consuming input. -/
def rpure {α : Type} (a : α) : Re α := fun cs => [(a, cs)]

/-- Sequencing: for each parse of `p`, continue with `f`. -/
def rbind {α β : Type} (p : Re α) (f : α → Re β) : Re β :=
  fun cs => (p cs).flatMap (fun ar => f ar.1 ar.2)

/-- Ordered alternation: parses of `p` are preferred over parses of `q`. -/
def ralt {α : Type} (p q : Re α) : Re α := fun cs => p cs ++ q cs

/-- Match one character satisfying `f`. -/
def reCh (f : Char → Bool) : Re Char := fun cs =>
  match cs with
  | [] => []
  | c :: rest => if f c then [(c, rest)] else []

/-- Match one character satisfying `f`, as a singleton chunk. -/
def reChL (f : Char → Bool) : Re (List Char) :=
  rbind (reCh f) (fun c => rpure [c])

/-- Optional single character from a class, greedy (`[..]?`). -/
def reOptCh (f : Char → Bool) : Re (List Char) :=
  ralt (reChL f) (rpure [])

/-- Exactly `k` characters from a class (`[..]{k}`). -/
def reCount : Nat → (Char → Bool) → Re (List Char)
  | 0, _ => rpure []
  | n + 1, f =>
    rbind (reCh f) (fun c => rbind (reCount n f) (fun rest => rpure (c :: rest)))

/-- At most `n` characters from a class, greedy (`[..]{0,n}`). -/
def reUpTo : Nat → (Char → Bool) → Re (List Char)
  | 0, _ => rpure []
  | n + 1, f =>
    ralt (rbind (reCh f) (fun c => rbind (reUpTo n f) (fun rest => rpure (c :: rest))))
      (rpure [])

/-- Between `lo` and `lo + extra` characters from a class, greedy
(`[..]{lo,lo+extra}`): the mandatory part followed by a greedy optional part
enumerates lengths from longest to shortest, as Python's engine does. -/
def reRange (lo extra : Nat) (f : Char → Bool) : Re (List Char) :=
  rbind (reCount lo f) (fun a => rbind (reUpTo extra f) (fun b => rpure (a ++ b)))

/-- Greedy star with explicit fuel; every body used in this file consumes at
least one character, so fuel equal to the input length is never exhausted. -/
def reStarN : Nat → Re (List Char) → Re (List Char)
  | 0, _ => rpure []
  | n + 1, p =>
    ralt (rbind p (fun x => rbind (reStarN n p) (fun xs => rpure (x ++ xs))))
      (rpure [])

/-- Greedy star (`(..)*`): prefer more iterations, backtracking to fewer. -/
def reStar (p : Re (List Char)) : Re (List Char) := fun cs => reStarN cs.length p cs

/-- Greedy plus (`[..]+`) over a character class. -/
def rePlusCh (f : Char → Bool) : Re (List Char) :=
  rbind (reCh f) (fun c => rbind (reStar (reChL f)) (fun rest => rpure (c :: rest)))

/-- Case-sensitive literal. -/
def reLit : List Char → Re (List Char)
  | [] => rpure []
  | c :: rest =>
    rbind (reCh (fun d => d = c))
      (fun x => rbind (reLit rest) (fun xs => rpure (x :: xs)))

/-- Case-insensitive literal (`re.IGNORECASE`, ASCII folding). -/
def reLitCI : List Char → Re (List Char)
  | [] => rpure []
  | c :: rest =>
    rbind (reCh (fun d => d.toLower = c.toLower))
      (fun x => rbind (reLitCI rest) (fun xs => rpure (x :: xs)))

/-- `re.search`: try each start position from the left; at the first position
where the pattern matches, return the highest-priority parse. -/
def reSearch {α : Type} (p : Re α) : List Char → Option α
  | [] =>
    match p [] with
    | (a, _) :: _ => some a
    | [] => none
  | c :: rest =>
    match p (c :: rest) with
    | (a, _) :: _ => some a
    | [] => reSearch p rest

/-! ## The patterns of `extract_metadata` (services.py lines 199–202, 243, 248, 262) -/

/-- The date separator class: slash or hyphen. -/
def isDateSep (c : Char) : Bool := c = '/' || c = '-'

/-- The date pattern of services.py line 199: one or two digits, a separator,
one or two digits, a separator, two to four digits; whole match. -/
def datePattern : Re (List Char) :=
  rbind (reRange 1 1 isAsciiDigit) (fun a =>
  rbind (reCh isDateSep) (fun s1 =>
  rbind (reRange 1 1 isAsciiDigit) (fun b =>
  rbind (reCh isDateSep) (fun s2 =>
  rbind (reRange 2 2 isAsciiDigit) (fun c =>
  rpure (a ++ s1 :: (b ++ s2 :: c)))))))

/-- `date_match.group(0).replace('/', '-')` after a successful date search. -/
def dateExtract (line : List Char) : Option String :=
  (reSearch datePattern line).map
    (fun g => String.mk (g.map (fun c => if c = '/' then '-' else c)))

/-- `[\$€£]`, the currency symbol class. -/
def isCurrencyCh (c : Char) : Bool := c = '$' || c = '€' || c = '£'

/-- Group 1 of the amount pattern: `[Ss]?\s*|Total|TOTAL|Amount` with
`re.IGNORECASE` — alternatives tried in written order. -/
def amountGroup1 : Re (List Char) :=
  ralt (rbind (reOptCh (fun c => c = 'S' || c = 's')) (fun s =>
          rbind (reStar (reChL isPyWs)) (fun w => rpure (s ++ w))))
    (ralt (reLitCI (("Total").toList))
      (ralt (reLitCI (("TOTAL").toList))
        (reLitCI (("Amount").toList))))

/-- One iteration of the thousands group `(?:[,\.\s]?\d{3})`. -/
def amountThousands : Re (List Char) :=
  rbind (reOptCh (fun c => c = ',' || c = '.' || isPyWs c)) (fun sep =>
  rbind (reCount 3 isAsciiDigit) (fun d => rpure (sep ++ d)))

/-- Group 2 of the amount pattern:
`\d{1,3}(?:[,\.\s]?\d{3})*(?:[\.,]\d{2})`. -/
def amountGroup2 : Re (List Char) :=
  rbind (reRange 1 2 isAsciiDigit) (fun h =>
  rbind (reStar amountThousands) (fun mid =>
  rbind (reCh (fun c => c = '.' || c = ',')) (fun s =>
  rbind (reCount 2 isAsciiDigit) (fun t =>
  rpure (h ++ mid ++ s :: t)))))

/-- The amount pattern (services.py line 200), returning group 2. -/
def amountPattern : Re (List Char) :=
  rbind amountGroup1 (fun _ =>
  rbind (reStar (reChL isPyWs)) (fun _ =>
  rbind (reOptCh isCurrencyCh) (fun _ =>
  rbind (reStar (reChL isPyWs)) (fun _ =>
  amountGroup2))))

/-- `f"USD-{group2.replace(',', '')}"` after a successful amount search. -/
def amountExtract (line : List Char) : Option String :=
  (reSearch amountPattern line).map
    (fun g => String.mk (("USD-").toList ++ g.filter (fun c => c ≠ ',')))

/-- `[:#\s]`, the label separator class of the invoice/reference patterns. -/
def isLabelSep (c : Char) : Bool := c = ':' || c = '#' || isPyWs c

/-- `[a-zA-Z0-9-]{3,20}`, group 2 of the invoice and reference patterns. -/
def tokenGroup : Re (List Char) :=
  rbind (reCount 3 isTokCh) (fun a =>
  rbind (reUpTo 17 isTokCh) (fun b => rpure (a ++ b)))

/-- `(invoice|inv|bill|statement)` with `re.IGNORECASE`. -/
def invoiceLabel : Re (List Char) :=
  ralt (reLitCI (("invoice").toList))
    (ralt (reLitCI (("inv").toList))
      (ralt (reLitCI (("bill").toList))
        (reLitCI (("statement").toList))))

/-- The invoice pattern (services.py line 201), returning group 2. -/
def invoicePattern : Re (List Char) :=
  rbind invoiceLabel (fun _ =>
  rbind (reStar (reChL isPyWs)) (fun _ =>
  rbind (reStar (reChL isLabelSep)) (fun _ =>
  tokenGroup)))

/-- `(ref|reference|po)` with `re.IGNORECASE` — `ref` is tried first, as in
the source's alternation order. -/
def referenceLabel : Re (List Char) :=
  ralt (reLitCI (("ref").toList))
    (ralt (reLitCI (("reference").toList))
      (reLitCI (("po").toList)))

/-- The reference pattern (services.py line 202), returning group 2. -/
def referencePattern : Re (List Char) :=
  rbind referenceLabel (fun _ =>
  rbind (reStar (reChL isPyWs)) (fun _ =>
  rbind (reStar (reChL isLabelSep)) (fun _ =>
  tokenGroup)))

/-- `group(2).strip().upper().replace(' ', '_')` applied to an invoice or
reference token. -/
def procToken (g : List Char) : String :=
  String.mk (((pyStripL g).map Char.toUpper).map (fun c => if c = ' ' then '_' else c))

/-- The processed invoice value a line yields, if any. -/
def invoiceExtract (line : List Char) : Option String :=
  (reSearch invoicePattern line).map procToken

/-- The processed reference value a line yields, if any. -/
def refExtract (line : List Char) : Option String :=
  (reSearch referencePattern line).map procToken

/-- `f'{custom_search_term}[\d-]+'` (services.py line 243), whole match. -/
def customNumericPattern (term : List Char) : Re (List Char) :=
  rbind (reLit term) (fun a =>
  rbind (rePlusCh (fun c => isAsciiDigit c || c = '-')) (fun b => rpure (a ++ b)))

/-- `[a-zA-Z0-9-]*ESC(term)[a-zA-Z0-9-]*` with `re.IGNORECASE`
(services.py line 248), whole match; `re.escape` makes the term literal. -/
def customSubstrPattern (term : List Char) : Re (List Char) :=
  rbind (reStar (reChL isTokCh)) (fun a =>
  rbind (reLitCI term) (fun b =>
  rbind (reStar (reChL isTokCh)) (fun c => rpure (a ++ b ++ c))))

/-- `f'{ESC(term)}\s*([^\n]+)'` with `re.IGNORECASE` (services.py line 262),
returning group 1. -/
def targetedPattern (term : List Char) : Re (List Char) :=
  rbind (reLitCI term) (fun _ =>
  rbind (reStar (reChL isPyWs)) (fun _ =>
  rePlusCh (fun c => c ≠ '\n')))

/-- `re.sub(r'[^a-zA-Z0-9-]', '', s)`: the custom-match sanitizer, which keeps
letters, digits and hyphens. -/
def sanitizeCustom (s : String) : String := String.mk (s.toList.filter isTokCh)

/-- `re.sub(r'[^a-zA-Z0-9]', '', s)`: the targeted-label sanitizer. -/
def sanitizeAlnum (s : String) : String := String.mk (s.toList.filter isAlnum)

/-- The 14 characters special to Python's regex syntax; a pattern whose
dynamic part contains one of these could raise `re.error` on compilation. -/
def isRegexMeta (c : Char) : Bool :=
  c = '.' || c = '^' || c = '$' || c = '*' || c = '+' || c = '?' || c = '{' ||
  c = '}' || c = '[' || c = ']' || c = '\\' || c = '|' || c = '(' || c = ')'

/-- The body of the custom-search `try` block (services.py lines 241–251):
pattern construction and search. The numeric branch interpolates the raw term
into the pattern, so an `re.error` is modelled for terms containing regex
metacharacters; the non-numeric branch escapes the term and cannot fail. -/
def customStep (term : String) (line : List Char) : Except String (Option String) :=
  if pyIsdigit term then
    if term.toList.any isRegexMeta then Except.error ("re.error")
    else Except.ok ((reSearch (customNumericPattern term.toList) line).map
      (fun g => String.mk g))
  else
    Except.ok ((reSearch (customSubstrPattern term.toList) line).map
      (fun g => pyStripS (String.mk g)))

/-- The body of the targeted-label `try` block (services.py lines 260–264):
the term is escaped, so pattern compilation cannot fail. -/
def targetedStep (term : String) (line : List Char) : Except String (Option String) :=
  Except.ok ((reSearch (targetedPattern term.toList) line).map (fun g => String.mk g))

/-! ## The per-line scan of `extract_metadata` (services.py lines 176–287) -/

/-- The mutable locals of the scan loop (`date_str`, `amount_str`,
`invoice_str`, `reference_str`, `custom_match_str`, `targeted_label_str`);
`none` models Python `None`. -/
structure ScanState where
  date : Option String
  amount : Option String
  invoice : Option String
  reference : Option String
  custom : Option String
  targeted : Option String
  deriving DecidableEq, Repr

/-- All fields start as `None`. -/
def initState : ScanState :=
  { date := none, amount := none, invoice := none, reference := none,
    custom := none, targeted := none }

/-- Lines 214–218: `if not date_str and fields_needed['date']` (the latter is
the constant `True`), search, normalise separators. -/
def stepDate (s : ScanState) (line : List Char) : ScanState :=
  if pyTruthy s.date then s
  else
    match dateExtract line with
    | some d => { s with date := some d }
    | none => s

/-- Lines 221–225: `if not amount_str`, search, prefix with `USD-`. -/
def stepAmount (s : ScanState) (line : List Char) : ScanState :=
  if pyTruthy s.amount then s
  else
    match amountExtract line with
    | some a => { s with amount := some a }
    | none => s

/-- Lines 228–231: `if not invoice_str`, search, normalise. -/
def stepInvoice (s : ScanState) (line : List Char) : ScanState :=
  if pyTruthy s.invoice then s
  else
    match invoiceExtract line with
    | some v => { s with invoice := some v }
    | none => s

/-- Lines 234–237: `if not reference_str and not invoice_str` — the invoice
value tested is the one already updated for this line. -/
def stepReference (s : ScanState) (line : List Char) : ScanState :=
  if pyTruthy s.reference || pyTruthy s.invoice then s
  else
    match refExtract line with
    | some v => { s with reference := some v }
    | none => s

/-- Lines 240–256: `if custom_search_term and not custom_match_str`, the
`try` body via `customStep`, the trailing
`if custom_match_str: custom_match_str = re.sub(...).strip('_')`, and the
`except` clause which logs and leaves the field unchanged. -/
def stepCustom (cst : Option String) (s : ScanState) (line : List Char) : ScanState :=
  match cst with
  | none => s
  | some term =>
    if term = "" then s
    else if pyTruthy s.custom then s
    else
      match customStep term line with
      | Except.error _ => s
      | Except.ok none => s
      | Except.ok (some g) =>
        let v := if g = "" then g else String.mk (pyStripUnderscoreL (sanitizeCustom g).toList)
        { s with custom := some v }

/-- Lines 259–270: `if targeted_label_term and not targeted_label_str`, the
`try` body via `targetedStep`, `group(1).strip()`, alphanumeric-only
sanitisation, `if not targeted_label_str: targeted_label_str = None`, and the
`except` clause which leaves the field unchanged. -/
def stepTargeted (tlt : Option String) (s : ScanState) (line : List Char) : ScanState :=
  match tlt with
  | none => s
  | some term =>
    if term = "" then s
    else if pyTruthy s.targeted then s
    else
      match targetedStep term line with
      | Except.error _ => s
      | Except.ok none => s
      | Except.ok (some g) =>
        let t := sanitizeAlnum (pyStripS g)
        { s with targeted := if t = "" then none else some t }

/-- One iteration of the `for line in lines` loop body, fields updated in
source order. -/
def processLine (cst tlt : Option String) (s : ScanState) (line : List Char) : ScanState :=
  stepTargeted tlt (stepCustom cst (stepReference (stepInvoice (stepAmount (stepDate s line) line) line) line) line) line

/-- The early-exit test of lines 273–275: a date was found, and each requested
optional term has been satisfied. -/
def breakCond (cst tlt : Option String) (s : ScanState) : Bool :=
  pyTruthy s.date && (!pyTruthy cst || pyTruthy s.custom) &&
    (!pyTruthy tlt || pyTruthy s.targeted)

/-- The scan loop with the early `break` of line 277. -/
def scanGo (cst tlt : Option String) : List (List Char) → ScanState → ScanState
  | [], s => s
  | l :: ls, s =>
    let sNew := processLine cst tlt s l
    if breakCond cst tlt sNew then sNew else scanGo cst tlt ls sNew

/-- The same scan with the early-exit check removed: every line is processed. -/
def scanAll (cst tlt : Option String) (ls : List (List Char)) (s : ScanState) : ScanState :=
  ls.foldl (processLine cst tlt) s

/-- The character class kept by the vendor sanitiser
`re.sub(r'[^a-zA-Z0-9\s-]', '', ...)`. -/
def keepVendorCh (c : Char) : Bool := isAlnum c || isPyWs c || c = '-'

/-- Line 194: sanitise, strip, truncate to 20 characters, replace spaces with
underscores. -/
def vendorSanitize (l : List Char) : String :=
  String.mk ((pyStripL (l.filter keepVendorCh)).take 20 |>.map
    (fun c => if c = ' ' then '_' else c))

/-- The first element of `text.split('\n')` (which is never empty). -/
def firstLineOf (text : String) : List Char :=
  match splitNl text.toList with
  | [] => []
  | l :: _ => l

/-- Lines 191–196: the vendor value, with the `"OCR_Scan"` placeholder when
the sanitised first line is falsy. -/
def vendorOf (text : String) : Option String :=
  let v0 : Option String :=
    match splitNl text.toList with
    | [] => none
    | l :: _ => some (vendorSanitize l)
  if pyTruthy v0 then v0 else some ("OCR_Scan")

/-- The result record of `extract_metadata` (services.py lines 279–287). The
`original_filename` field models the presence (`some`) or absence (`none`) of
any `'original_filename'` key in the metadata dict consumed by
`create_suggested_name`; `extract_metadata` never adds one. -/
structure ExtractionResult where
  date : Option String
  vendor : Option String
  amount : Option String
  invoice_number : Option String
  reference_number : Option String
  custom_match : Option String
  targeted_label : Option String
  original_filename : Option String
  deriving DecidableEq, Repr

/-- `extract_metadata` (services.py lines 176–287). -/
def extract_metadata (text : String) (custom_search_term targeted_label_term : Option String) :
    ExtractionResult :=
  { date := (scanGo custom_search_term targeted_label_term (splitNl text.toList) initState).date
    vendor := vendorOf text
    amount := (scanGo custom_search_term targeted_label_term (splitNl text.toList) initState).amount
    invoice_number := (scanGo custom_search_term targeted_label_term (splitNl text.toList) initState).invoice
    reference_number := (scanGo custom_search_term targeted_label_term (splitNl text.toList) initState).reference
    custom_match := (scanGo custom_search_term targeted_label_term (splitNl text.toList) initState).custom
    targeted_label := (scanGo custom_search_term targeted_label_term (splitNl text.toList) initState).targeted
    original_filename := none }

/-- The reference implementation for the early-termination claim:
`extract_metadata` with the early-exit check removed, scanning every line. -/
def extract_metadata_noEarlyExit (text : String)
    (custom_search_term targeted_label_term : Option String) : ExtractionResult :=
  { date := (scanAll custom_search_term targeted_label_term (splitNl text.toList) initState).date
    vendor := vendorOf text
    amount := (scanAll custom_search_term targeted_label_term (splitNl text.toList) initState).amount
    invoice_number := (scanAll custom_search_term targeted_label_term (splitNl text.toList) initState).invoice
    reference_number := (scanAll custom_search_term targeted_label_term (splitNl text.toList) initState).reference
    custom_match := (scanAll custom_search_term targeted_label_term (splitNl text.toList) initState).custom
    targeted_label := (scanAll custom_search_term targeted_label_term (splitNl text.toList) initState).targeted
    original_filename := none }

/-! ## `extract_metadata` with the `except` clauses removed

In `extract_metadata` the two `try/except` blocks absorb any `re.error` from
the user-supplied terms. `processLineE` is the same line body with the
`except` clauses removed, so that an error would propagate and abort the whole
extraction; it is used to state that no input ever raises. -/

/-- The line body with error propagation instead of the `except` clauses. -/
def processLineE (cst tlt : Option String) (s : ScanState) (line : List Char) :
    Except String ScanState :=
  let s4 := stepReference (stepInvoice (stepAmount (stepDate s line) line) line) line
  let afterCustom : Except String ScanState :=
    match cst with
    | none => Except.ok s4
    | some term =>
      if term = "" then Except.ok s4
      else if pyTruthy s4.custom then Except.ok s4
      else
        match customStep term line with
        | Except.error e => Except.error e
        | Except.ok none => Except.ok s4
        | Except.ok (some g) =>
          let v := if g = "" then g else String.mk (pyStripUnderscoreL (sanitizeCustom g).toList)
          Except.ok { s4 with custom := some v }
  match afterCustom with
  | Except.error e => Except.error e
  | Except.ok s5 =>
    match tlt with
    | none => Except.ok s5
    | some term =>
      if term = "" then Except.ok s5
      else if pyTruthy s5.targeted then Except.ok s5
      else
        match targetedStep term line with
        | Except.error e => Except.error e
        | Except.ok none => Except.ok s5
        | Except.ok (some g) =>
          let t := sanitizeAlnum (pyStripS g)
          Except.ok { s5 with targeted := if t = "" then none else some t }

/-- The scan loop with error propagation. -/
def scanGoE (cst tlt : Option String) : List (List Char) → ScanState → Except String ScanState
  | [], s => Except.ok s
  | l :: ls, s =>
    match processLineE cst tlt s l with
    | Except.error e => Except.error e
    | Except.ok sNew => if breakCond cst tlt sNew then Except.ok sNew else scanGoE cst tlt ls sNew

/-- `extract_metadata` with the `except` clauses removed: a pattern error in a
per-field step would abort the extraction with `Except.error`. -/
def extract_metadata_noCatch (text : String)
    (custom_search_term targeted_label_term : Option String) :
    Except String ExtractionResult :=
  match scanGoE custom_search_term targeted_label_term (splitNl text.toList) initState with
  | Except.error e => Except.error e
  | Except.ok fin =>
    Except.ok
      { date := fin.date, vendor := vendorOf text, amount := fin.amount,
        invoice_number := fin.invoice, reference_number := fin.reference,
        custom_match := fin.custom, targeted_label := fin.targeted,
        original_filename := none }

/-! ## `calculate_adaptive_crop` (services.py lines 128–173) -/

/-- The fixed table of typical field depths (services.py lines 147–159). -/
def componentLocations : String → Option Nat
  | "vendor" => some 30
  | "date" => some 35
  | "invoice_number" => some 40
  | "reference_number" => some 40
  | "custom_match" => some 40
  | "targeted_label" => some 50
  | "amount" => some 80
  | "timestamp" => some 100
  | _ => none

/-- `calculate_adaptive_crop` (the spec's `plan_region`): empty list returns
the default 50; otherwise the deepest listed component's depth (floor 50),
plus a 10-point margin, clamped to 100. -/
def calculate_adaptive_crop (component_list : List String) : Nat :=
  if component_list.isEmpty then 50
  else
    let maxLocation := component_list.foldl
      (fun m c =>
        match componentLocations c with
        | some d => if m < d then d else m
        | none => m) 50
    min (maxLocation + 10) 100

/-- The formula the spec states for non-empty lists: `min(100, 10 + max(depth
over listed tokens found in the table, with an implicit floor of 50))`,
unknown tokens ignored. -/
def specCropFormula (component_list : List String) : Nat :=
  min 100 (10 + component_list.foldl
    (fun m c =>
      match componentLocations c with
      | some d => max m d
      | none => m) 50)

/-! ## `create_suggested_name` (services.py lines 290–320) -/

/-- The character class kept by the filename sanitiser
`re.sub(r'[^a-zA-Z0-9_.-]', '', ...)`: letters, digits, underscore, dot,
hyphen. -/
def keepFileCh (c : Char) : Bool := isAlnum c || c = '_' || c = '.' || c = '-'

/-- Python `separator.join(parts)`. -/
def pyJoin (sep : String) : List String → String
  | [] => ""
  | [x] => x
  | x :: xs => x ++ sep ++ pyJoin sep xs

/-- The `component_map` lookup (services.py lines 298–308), with the clock
passed explicitly: `today` is `datetime.date.today().strftime('%Y%m%d')` and
`nowTime` is `datetime.datetime.now().strftime('%H%M%S')`. A `none` result
models both an unknown key and a Python `None` value, which the composer
loop treats identically (both are falsy). -/
def componentValue (metadata : ExtractionResult) (today nowTime : String) :
    String → Option String
  | "date" =>
    some (match metadata.date with
          | some d => if d = "" then today else d
          | none => today)
  | "vendor" => metadata.vendor
  | "amount" => metadata.amount
  | "invoice_number" => metadata.invoice_number
  | "reference_number" => metadata.reference_number
  | "custom_match" => metadata.custom_match
  | "targeted_label" => metadata.targeted_label
  | "timestamp" => some nowTime
  | "original_filename" => some (metadata.original_filename.getD ("file"))
  | _ => none

/-- Line 291–292: only an absent (`None`) component list is defaulted to
`['custom_match']`; an explicitly empty list stays empty. -/
def defaultComps : Option (List String) → List String
  | none => ["custom_match"]
  | some l => l

/-- Lines 294–296: the optional sanitised prefix, appended ahead of every
component when the raw prefix is non-empty. -/
def prefixParts (pfx : String) : List String :=
  if pfx = "" then [] else [pyStripS (String.mk (pfx.toList.filter keepFileCh))]

/-- Lines 310–312: append each listed component's value when it is truthy. -/
def collectParts (metadata : ExtractionResult) (today nowTime : String)
    (comps : List String) (parts0 : List String) : List String :=
  comps.foldl
    (fun acc key =>
      match componentValue metadata today nowTime key with
      | some v => if v = "" then acc else acc ++ [v]
      | none => acc) parts0

/-- Lines 314–315: the synthetic fallback when no parts were collected. -/
def withFallback (today : String) (parts : List String) : List String :=
  if parts = [] then [today, "EMPTY_OCR"] else parts

/-- Line 318: the final sanitisation pass — strip characters outside
`[a-zA-Z0-9_.-]` and replace remaining spaces with underscores. -/
def sanitizeFileName (s : String) : String :=
  String.mk ((s.toList.filter keepFileCh).map (fun c => if c = ' ' then '_' else c))

/-- `create_suggested_name` (services.py lines 290–320). `component_list` is
`Option` because the source defaults only an absent (`None`) list to
`['custom_match']`; the clock is passed explicitly. -/
def create_suggested_name (metadata : ExtractionResult) (original_extension : String)
    (pfx : String) (separator : String) (component_list : Option (List String))
    (today nowTime : String) : String :=
  sanitizeFileName
      (pyJoin separator
        (withFallback today
          (collectParts metadata today nowTime (defaultComps component_list)
            (prefixParts pfx)))) ++
    original_extension

/-! ## Substring helpers for stating the filename scenarios -/

/-- `p` is a prefix of `l`. -/
def isPrefixSeq : List Char → List Char → Bool
  | [], _ => true
  | _ :: _, [] => false
  | c :: p, d :: l => c = d && isPrefixSeq p l

/-- `p` occurs as a contiguous subsequence of `l`. -/
def containsSeq (p : List Char) : List Char → Bool
  | [] => isPrefixSeq p []
  | d :: l => isPrefixSeq p (d :: l) || containsSeq p l

/-- `p` is a suffix of `l`. -/
def isSuffixSeq (p l : List Char) : Bool := isPrefixSeq p.reverse l.reverse

/-! ## Claims C4 and C5: the region planner -/

/-- The code's fold step keeps the larger of the accumulator and a known
component's depth, so the accumulator never decreases. -/
theorem crop_fold_ge (l : List String) :
    ∀ m : Nat,
      m ≤ l.foldl
        (fun m c =>
          match componentLocations c with
          | some d => if m < d then d else m
          | none => m) m := by
  induction l with
  | nil => intro m; exact Nat.le_refl m
  | cons c cs ih =>
    intro m
    simp only [List.foldl_cons]
    refine Nat.le_trans ?_ (ih _)
    cases componentLocations c with
    | none => exact Nat.le_refl m
    | some d =>
      by_cases h : m < d
      · simp only [if_pos h]; exact Nat.le_of_lt h
      · simp only [if_neg h]; exact Nat.le_refl m

/-- The code's `if d > m then d else m` fold agrees with the spec's
`max` fold. -/
theorem crop_fold_eq_max (l : List String) :
    ∀ m : Nat,
      l.foldl
        (fun m c =>
          match componentLocations c with
          | some d => if m < d then d else m
          | none => m) m
      = l.foldl
        (fun m c =>
          match componentLocations c with
          | some d => max m d
          | none => m) m := by
  induction l with
  | nil => intro m; rfl
  | cons c cs ih =>
    intro m
    simp only [List.foldl_cons]
    have hstep :
        (match componentLocations c with
         | some d => if m < d then d else m
         | none => m)
        = (match componentLocations c with
           | some d => max m d
           | none => m) := by
      cases componentLocations c with
      | none => rfl
      | some d =>
        by_cases h : m < d
        · simp only [if_pos h]
          exact (Nat.max_eq_right (Nat.le_of_lt h)).symm
        · simp only [if_neg h]
          exact (Nat.max_eq_left (Nat.le_of_not_lt h)).symm
    rw [hstep]
    exact ih _

/-- C4 (counterexample): the claim asserts `plan_region(['vendor']) = 40`, but
`calculate_adaptive_crop ['vendor']` is 60 — vendor's depth 30 is below the
50 floor, and the 10-point margin is added to the floor. -/
theorem c4_counterexample :
    calculate_adaptive_crop ["vendor"] = 60 ∧ (60 : Nat) ≠ 40 := by
  exact ⟨by decide, by decide⟩

/-- C4 (amended): `calculate_adaptive_crop` satisfies `plan_region([]) = 50`,
`plan_region(['amount']) = 90` and `plan_region(['vendor']) = 60` (not 40:
the 50 floor plus the 10 margin dominates vendor's depth of 30), and for
every component list the result lies in [30, 100]. -/
theorem c4_plan_region_values_and_range :
    calculate_adaptive_crop [] = 50 ∧
    calculate_adaptive_crop ["amount"] = 90 ∧
    calculate_adaptive_crop ["vendor"] = 60 ∧
    ∀ l : List String,
      30 ≤ calculate_adaptive_crop l ∧ calculate_adaptive_crop l ≤ 100 := by
  refine ⟨by decide, by decide, by decide, ?_⟩
  intro l
  unfold calculate_adaptive_crop
  by_cases he : l.isEmpty
  · simp only [if_pos he]
    exact ⟨by decide, by decide⟩
  · simp only [if_neg he]
    constructor
    · have h50 := crop_fold_ge l 50
      have : (30 : Nat) ≤
          l.foldl
            (fun m c =>
              match componentLocations c with
              | some d => if m < d then d else m
              | none => m) 50 + 10 := by omega
      exact Nat.le_min.mpr ⟨this, by decide⟩
    · exact Nat.min_le_right _ _

/-- C5: for every non-empty component list, `calculate_adaptive_crop` equals
the spec's formula `min(100, 10 + max(depth over known tokens, floor 50))`,
with unknown tokens ignored. -/
theorem c5_crop_formula (l : List String) (h : l ≠ []) :
    calculate_adaptive_crop l = specCropFormula l := by
  unfold calculate_adaptive_crop specCropFormula
  have he : l.isEmpty = false := by
    cases l with
    | nil => exact absurd rfl h
    | cons c cs => rfl
  simp only [he, Bool.false_eq_true, if_false]
  rw [crop_fold_eq_max]
  rw [Nat.min_comm]
  rw [Nat.add_comm]

/-- C5 (witness): the formula theorem applied to the concrete list
`['amount']`. -/
theorem c5_crop_formula_witness :
    (["amount"] : List String) ≠ [] ∧
      calculate_adaptive_crop ["amount"] = specCropFormula ["amount"] :=
  ⟨by decide, c5_crop_formula ["amount"] (by decide)⟩

/-! ## Claim C2: the four-line scenario -/

/-- C2 (counterexample): on the claim's text the composed filename is
`Acme_Corp_04-12-2023.pdf`; it does not contain `USD-1250.00`, because the
early exit fires on the date line (line 3) before the amount line (line 4)
is ever scanned. -/
theorem c2_counterexample :
    create_suggested_name
        (extract_metadata ("Acme Corp\nInvoice: A1-998\nDate 04/12/2023\nTotal $1,250.00") none none)
        (".pdf") ("") ("_") (some ["vendor", "date", "amount"]) ("20260101") ("101010")
      = "Acme_Corp_04-12-2023.pdf" ∧
    containsSeq (("USD-1250.00").toList)
        (("Acme_Corp_04-12-2023.pdf").toList) = false := by
  exact ⟨by decide, by decide⟩

/-- C2 (amended): for the claim's text and components, whatever the clock
reads, the composed filename is exactly `Acme_Corp_04-12-2023.pdf` — it ends
in `.pdf` and contains `Acme_Corp` and `04-12-2023` joined by `_` in that
order, but the amount component is absent: the scan exits early at the date
line, so `amount` is null. -/
theorem c2_scenario_filename (today nowTime : String) :
    create_suggested_name
        (extract_metadata ("Acme Corp\nInvoice: A1-998\nDate 04/12/2023\nTotal $1,250.00") none none)
        (".pdf") ("") ("_") (some ["vendor", "date", "amount"]) today nowTime
      = "Acme_Corp_04-12-2023.pdf" ∧
    containsSeq (("Acme_Corp_04-12-2023").toList)
        (("Acme_Corp_04-12-2023.pdf").toList) = true ∧
    isSuffixSeq ((".pdf").toList)
        (("Acme_Corp_04-12-2023.pdf").toList) = true := by
  exact ⟨rfl, by decide, by decide⟩

/-! ## Claim C6: the numeric custom search term -/

/-- C6 (counterexample): with term `12345` and the claim's line, the returned
`custom_match` is `12345-6789`, not `123456789` — the sanitizer
`re.sub(r'[^a-zA-Z0-9-]', '', ...)` keeps hyphens. -/
theorem c6_counterexample :
    (extract_metadata ("REF 12345-6789 extra\n01/02/2023") (some ("12345")) none).custom_match
      = some ("12345-6789") ∧
    ("12345-6789" : String) ≠ "123456789" := by
  exact ⟨by decide, by decide⟩

/-- C6 (amended): a purely numeric term matches the term immediately followed
by digits/hyphens, the first such match found during the scan is kept (the
match itself greedy at its position), and sanitization preserves hyphens:
with term `12345` the claim's line yields `12345-6789`, and when an earlier
line already matches (`ID 12345-1 ok`), that first match `12345-1` is kept
even though a longer match appears later. -/
theorem c6_numeric_custom_match :
    (extract_metadata ("REF 12345-6789 extra\n01/02/2023") (some ("12345")) none).custom_match
      = some ("12345-6789") ∧
    (extract_metadata ("ID 12345-1 ok\nREF 12345-6789 extra\n01/02/2023") (some ("12345")) none).custom_match
      = some ("12345-1") := by
  exact ⟨by decide, by decide⟩

/-! ## Claim C1: early termination

Shape of the argument: each field is guarded by `if not <field>` and so is
never overwritten once truthy; the early exit fires only when every gating
field (date, and custom/targeted when requested) is truthy; hence the lines
the exit skips could not have changed those fields. -/

theorem stepDate_other (s : ScanState) (l : List Char) :
    (stepDate s l).amount = s.amount ∧ (stepDate s l).invoice = s.invoice ∧
    (stepDate s l).reference = s.reference ∧ (stepDate s l).custom = s.custom ∧
    (stepDate s l).targeted = s.targeted := by
  unfold stepDate
  split
  · exact ⟨rfl, rfl, rfl, rfl, rfl⟩
  · split <;> exact ⟨rfl, rfl, rfl, rfl, rfl⟩

theorem stepAmount_other (s : ScanState) (l : List Char) :
    (stepAmount s l).date = s.date ∧ (stepAmount s l).invoice = s.invoice ∧
    (stepAmount s l).reference = s.reference ∧ (stepAmount s l).custom = s.custom ∧
    (stepAmount s l).targeted = s.targeted := by
  unfold stepAmount
  split
  · exact ⟨rfl, rfl, rfl, rfl, rfl⟩
  · split <;> exact ⟨rfl, rfl, rfl, rfl, rfl⟩

theorem stepInvoice_other (s : ScanState) (l : List Char) :
    (stepInvoice s l).date = s.date ∧ (stepInvoice s l).amount = s.amount ∧
    (stepInvoice s l).reference = s.reference ∧ (stepInvoice s l).custom = s.custom ∧
    (stepInvoice s l).targeted = s.targeted := by
  unfold stepInvoice
  split
  · exact ⟨rfl, rfl, rfl, rfl, rfl⟩
  · split <;> exact ⟨rfl, rfl, rfl, rfl, rfl⟩

theorem stepReference_other (s : ScanState) (l : List Char) :
    (stepReference s l).date = s.date ∧ (stepReference s l).amount = s.amount ∧
    (stepReference s l).invoice = s.invoice ∧ (stepReference s l).custom = s.custom ∧
    (stepReference s l).targeted = s.targeted := by
  unfold stepReference
  split
  · exact ⟨rfl, rfl, rfl, rfl, rfl⟩
  · split <;> exact ⟨rfl, rfl, rfl, rfl, rfl⟩

theorem stepCustom_other (cst : Option String) (s : ScanState) (l : List Char) :
    (stepCustom cst s l).date = s.date ∧ (stepCustom cst s l).amount = s.amount ∧
    (stepCustom cst s l).invoice = s.invoice ∧ (stepCustom cst s l).reference = s.reference ∧
    (stepCustom cst s l).targeted = s.targeted := by
  unfold stepCustom
  split
  · exact ⟨rfl, rfl, rfl, rfl, rfl⟩
  · split
    · exact ⟨rfl, rfl, rfl, rfl, rfl⟩
    · split
      · exact ⟨rfl, rfl, rfl, rfl, rfl⟩
      · split <;> exact ⟨rfl, rfl, rfl, rfl, rfl⟩

theorem stepTargeted_other (tlt : Option String) (s : ScanState) (l : List Char) :
    (stepTargeted tlt s l).date = s.date ∧ (stepTargeted tlt s l).amount = s.amount ∧
    (stepTargeted tlt s l).invoice = s.invoice ∧ (stepTargeted tlt s l).reference = s.reference ∧
    (stepTargeted tlt s l).custom = s.custom := by
  unfold stepTargeted
  split
  · exact ⟨rfl, rfl, rfl, rfl, rfl⟩
  · split
    · exact ⟨rfl, rfl, rfl, rfl, rfl⟩
    · split
      · exact ⟨rfl, rfl, rfl, rfl, rfl⟩
      · split <;> exact ⟨rfl, rfl, rfl, rfl, rfl⟩

/-- A truthy date is never re-searched. -/
theorem stepDate_of_truthy {s : ScanState} (l : List Char)
    (h : pyTruthy s.date = true) : stepDate s l = s := by
  unfold stepDate
  rw [if_pos h]

/-- A truthy invoice is never re-searched. -/
theorem stepInvoice_of_truthy {s : ScanState} (l : List Char)
    (h : pyTruthy s.invoice = true) : stepInvoice s l = s := by
  unfold stepInvoice
  rw [if_pos h]

/-- The custom search is skipped when no term was supplied or the field is
already truthy. -/
theorem stepCustom_of_skip {cst : Option String} {s : ScanState} (l : List Char)
    (h : pyTruthy cst = false ∨ pyTruthy s.custom = true) : stepCustom cst s l = s := by
  cases cst with
  | none => rfl
  | some term =>
    rcases h with h | h
    · have ht : term = "" := by
        by_contra hne
        simp [pyTruthy, hne] at h
      simp [stepCustom, ht]
    · by_cases ht : term = ""
      · simp [stepCustom, ht]
      · simp [stepCustom, ht, h]

/-- The targeted-label search is skipped when no term was supplied or the
field is already truthy. -/
theorem stepTargeted_of_skip {tlt : Option String} {s : ScanState} (l : List Char)
    (h : pyTruthy tlt = false ∨ pyTruthy s.targeted = true) : stepTargeted tlt s l = s := by
  cases tlt with
  | none => rfl
  | some term =>
    rcases h with h | h
    · have ht : term = "" := by
        by_contra hne
        simp [pyTruthy, hne] at h
      simp [stepTargeted, ht]
    · by_cases ht : term = ""
      · simp [stepTargeted, ht]
      · simp [stepTargeted, ht, h]

/-- A truthy date passes through a whole line unchanged. -/
theorem processLine_date_of_truthy (cst tlt : Option String) {s : ScanState} (l : List Char)
    (h : pyTruthy s.date = true) : (processLine cst tlt s l).date = s.date := by
  unfold processLine
  rw [stepDate_of_truthy l h]
  rw [(stepTargeted_other tlt _ l).1, (stepCustom_other cst _ l).1,
    (stepReference_other _ l).1, (stepInvoice_other _ l).1, (stepAmount_other _ l).1]

/-- A satisfied custom field passes through a whole line unchanged. -/
theorem processLine_custom_of_skip (cst tlt : Option String) {s : ScanState} (l : List Char)
    (h : pyTruthy cst = false ∨ pyTruthy s.custom = true) :
    (processLine cst tlt s l).custom = s.custom := by
  unfold processLine
  have hmid : (stepReference (stepInvoice (stepAmount (stepDate s l) l) l) l).custom = s.custom := by
    rw [(stepReference_other _ l).2.2.2.1, (stepInvoice_other _ l).2.2.2.1,
      (stepAmount_other _ l).2.2.2.1, (stepDate_other _ l).2.2.2.1]
  rw [(stepTargeted_other tlt _ l).2.2.2.2]
  rw [stepCustom_of_skip l (by rw [hmid]; exact h)]
  exact hmid

/-- A satisfied targeted field passes through a whole line unchanged. -/
theorem processLine_targeted_of_skip (cst tlt : Option String) {s : ScanState} (l : List Char)
    (h : pyTruthy tlt = false ∨ pyTruthy s.targeted = true) :
    (processLine cst tlt s l).targeted = s.targeted := by
  unfold processLine
  have hmid : (stepCustom cst (stepReference (stepInvoice (stepAmount (stepDate s l) l) l) l) l).targeted = s.targeted := by
    rw [(stepCustom_other cst _ l).2.2.2.2, (stepReference_other _ l).2.2.2.2,
      (stepInvoice_other _ l).2.2.2.2, (stepAmount_other _ l).2.2.2.2,
      (stepDate_other _ l).2.2.2.2]
  rw [stepTargeted_of_skip l (by rw [hmid]; exact h)]
  exact hmid

/-- Once the break condition holds, a further line changes none of the gating
fields and the condition keeps holding. -/
theorem breakCond_processLine (cst tlt : Option String) {s : ScanState} (l : List Char)
    (h : breakCond cst tlt s = true) :
    (processLine cst tlt s l).date = s.date ∧
    (processLine cst tlt s l).custom = s.custom ∧
    (processLine cst tlt s l).targeted = s.targeted ∧
    breakCond cst tlt (processLine cst tlt s l) = true := by
  unfold breakCond at h
  rcases Bool.and_eq_true_iff.mp h with ⟨h12, h3⟩
  rcases Bool.and_eq_true_iff.mp h12 with ⟨h1, h2⟩
  have hc : pyTruthy cst = false ∨ pyTruthy s.custom = true := by
    rcases Bool.or_eq_true_iff.mp h2 with h | h
    · exact Or.inl (by revert h; cases pyTruthy cst <;> simp)
    · exact Or.inr h
  have ht : pyTruthy tlt = false ∨ pyTruthy s.targeted = true := by
    rcases Bool.or_eq_true_iff.mp h3 with h | h
    · exact Or.inl (by revert h; cases pyTruthy tlt <;> simp)
    · exact Or.inr h
  have hd := processLine_date_of_truthy cst tlt l h1
  have hcu := processLine_custom_of_skip cst tlt l hc
  have hta := processLine_targeted_of_skip cst tlt l ht
  refine ⟨hd, hcu, hta, ?_⟩
  unfold breakCond
  rw [hd, hcu, hta]
  exact h

/-- Once the break condition holds, the rest of a full scan changes none of
the gating fields. -/
theorem scanAll_gating_of_break (cst tlt : Option String) :
    ∀ (ls : List (List Char)) (s : ScanState), breakCond cst tlt s = true →
      (scanAll cst tlt ls s).date = s.date ∧
      (scanAll cst tlt ls s).custom = s.custom ∧
      (scanAll cst tlt ls s).targeted = s.targeted := by
  intro ls
  induction ls with
  | nil => intro s _; exact ⟨rfl, rfl, rfl⟩
  | cons l ls ih =>
    intro s h
    have hp := breakCond_processLine cst tlt l h
    have hrec := ih (processLine cst tlt s l) hp.2.2.2
    unfold scanAll at hrec ⊢
    simp only [List.foldl_cons]
    exact ⟨hrec.1.trans hp.1, hrec.2.1.trans hp.2.1, hrec.2.2.trans hp.2.2.1⟩

/-- The scan with early exit and the full scan agree on every gating field. -/
theorem scan_gating_eq (cst tlt : Option String) :
    ∀ (ls : List (List Char)) (s : ScanState),
      (scanGo cst tlt ls s).date = (scanAll cst tlt ls s).date ∧
      (scanGo cst tlt ls s).custom = (scanAll cst tlt ls s).custom ∧
      (scanGo cst tlt ls s).targeted = (scanAll cst tlt ls s).targeted := by
  intro ls
  induction ls with
  | nil => intro s; exact ⟨rfl, rfl, rfl⟩
  | cons l ls ih =>
    intro s
    unfold scanGo scanAll
    simp only [List.foldl_cons]
    by_cases hb : breakCond cst tlt (processLine cst tlt s l) = true
    · rw [if_pos hb]
      have := scanAll_gating_of_break cst tlt ls (processLine cst tlt s l) hb
      exact ⟨(this.1).symm, (this.2.1).symm, (this.2.2).symm⟩
    · rw [if_neg hb]
      exact ih (processLine cst tlt s l)

/-- C1 (counterexample): text whose date sits on the very first line, yet the
early-exiting extraction and the full scan disagree — the full scan finds the
amount on line 2, which the early exit never reads. So the claim that *every*
field matches the full scan is false. -/
theorem c1_counterexample :
    (dateExtract (firstLineOf ("01/01/2020\nTotal $1,250.00"))).isSome = true ∧
    (extract_metadata ("01/01/2020\nTotal $1,250.00") none none).amount = none ∧
    (extract_metadata_noEarlyExit ("01/01/2020\nTotal $1,250.00") none none).amount
      = some ("USD-1250.00") := by
  exact ⟨by decide, by decide, by decide⟩

/-- C1 (amended): for every text and optional terms, early exit never changes
the gating fields — date, vendor, custom match and targeted label are
identical to a full scan with the early-exit check removed. (The best-effort
fields amount, invoice number and reference number can differ, as they are
not part of the termination condition.) -/
theorem c1_early_exit_gating (text : String) (cst tlt : Option String) :
    (extract_metadata text cst tlt).date = (extract_metadata_noEarlyExit text cst tlt).date ∧
    (extract_metadata text cst tlt).vendor = (extract_metadata_noEarlyExit text cst tlt).vendor ∧
    (extract_metadata text cst tlt).custom_match
      = (extract_metadata_noEarlyExit text cst tlt).custom_match ∧
    (extract_metadata text cst tlt).targeted_label
      = (extract_metadata_noEarlyExit text cst tlt).targeted_label := by
  have h := scan_gating_eq cst tlt (splitNl text.toList) initState
  exact ⟨h.1, rfl, h.2.1, h.2.2⟩

/-! ## Claim C3: invoice priority over reference

The code suppresses the reference search only while no invoice has been
found; a reference found on an *earlier* line than the first invoice match is
kept. The lemmas below show the guard is airtight in the forward direction:
whenever every reference-matching line is preceded (weakly) by an
invoice-matching line, the reference field stays null. -/

theorem mem_rbind {α β : Type} {p : Re α} {f : α → Re β} {cs : List Char}
    {x : β × List Char} :
    x ∈ rbind p f cs ↔ ∃ ar, ar ∈ p cs ∧ x ∈ f ar.1 ar.2 := by
  simp [rbind, List.mem_flatMap]

theorem mem_rpure {α : Type} {a : α} {cs : List Char} {x : α × List Char} :
    x ∈ rpure a cs ↔ x = (a, cs) := by
  simp [rpure]

theorem mem_reCh {f : Char → Bool} {cs : List Char} {x : Char × List Char}
    (h : x ∈ reCh f cs) : f x.1 = true := by
  cases cs with
  | nil => simp [reCh] at h
  | cons c rest =>
    by_cases hf : f c = true
    · simp [reCh, hf] at h
      rw [h]
      exact hf
    · simp [reCh, hf] at h

theorem reCount_mem {f : Char → Bool} :
    ∀ {k : Nat} {cs : List Char} {x : List Char × List Char},
      x ∈ reCount k f cs → x.1.length = k ∧ ∀ c ∈ x.1, f c = true := by
  intro k
  induction k with
  | zero =>
    intro cs x h
    rw [reCount, mem_rpure] at h
    subst h
    exact ⟨rfl, by intro c hc; simp at hc⟩
  | succ n ih =>
    intro cs x h
    rw [reCount, mem_rbind] at h
    rcases h with ⟨c1, hc1, h⟩
    rw [mem_rbind] at h
    rcases h with ⟨rest, hrest, h⟩
    rw [mem_rpure] at h
    subst h
    have h1 := mem_reCh hc1
    have h2 := ih hrest
    constructor
    · simp [h2.1]
    · intro c hc
      rcases List.mem_cons.mp hc with rfl | hc
      · exact h1
      · exact h2.2 c hc

theorem reUpTo_mem {f : Char → Bool} :
    ∀ {n : Nat} {cs : List Char} {x : List Char × List Char},
      x ∈ reUpTo n f cs → ∀ c ∈ x.1, f c = true := by
  intro n
  induction n with
  | zero =>
    intro cs x h
    rw [reUpTo, mem_rpure] at h
    subst h
    intro c hc
    simp at hc
  | succ n ih =>
    intro cs x h
    rw [reUpTo] at h
    rcases List.mem_append.mp h with h | h
    · rw [mem_rbind] at h
      rcases h with ⟨c1, hc1, h⟩
      rw [mem_rbind] at h
      rcases h with ⟨rest, hrest, h⟩
      rw [mem_rpure] at h
      subst h
      intro c hc
      rcases List.mem_cons.mp hc with rfl | hc
      · exact mem_reCh hc1
      · exact ih hrest c hc
    · rw [mem_rpure] at h
      subst h
      intro c hc
      simp at hc

theorem tokenGroup_mem {cs : List Char} {x : List Char × List Char}
    (h : x ∈ tokenGroup cs) : 3 ≤ x.1.length ∧ ∀ c ∈ x.1, isTokCh c = true := by
  unfold tokenGroup at h
  rw [mem_rbind] at h
  rcases h with ⟨a, ha, h⟩
  rw [mem_rbind] at h
  rcases h with ⟨b, hb, h⟩
  rw [mem_rpure] at h
  subst h
  have h1 := reCount_mem ha
  have h2 := reUpTo_mem hb
  constructor
  · simp [h1.1]
  · intro c hc
    rcases List.mem_append.mp hc with hc | hc
    · exact h1.2 c hc
    · exact h2 c hc

theorem invoicePattern_group {cs : List Char} {x : List Char × List Char}
    (h : x ∈ invoicePattern cs) : 3 ≤ x.1.length ∧ ∀ c ∈ x.1, isTokCh c = true := by
  unfold invoicePattern at h
  rw [mem_rbind] at h
  rcases h with ⟨a1, _, h⟩
  rw [mem_rbind] at h
  rcases h with ⟨a2, _, h⟩
  rw [mem_rbind] at h
  rcases h with ⟨a3, _, h⟩
  exact tokenGroup_mem h

theorem referencePattern_group {cs : List Char} {x : List Char × List Char}
    (h : x ∈ referencePattern cs) : 3 ≤ x.1.length ∧ ∀ c ∈ x.1, isTokCh c = true := by
  unfold referencePattern at h
  rw [mem_rbind] at h
  rcases h with ⟨a1, _, h⟩
  rw [mem_rbind] at h
  rcases h with ⟨a2, _, h⟩
  rw [mem_rbind] at h
  rcases h with ⟨a3, _, h⟩
  exact tokenGroup_mem h

theorem reSearch_some {α : Type} {p : Re α} :
    ∀ {cs : List Char} {a : α}, reSearch p cs = some a →
      ∃ cs2 x, x ∈ p cs2 ∧ Prod.fst x = a := by
  intro cs
  induction cs with
  | nil =>
    intro a h
    rw [reSearch] at h
    cases hp : p [] with
    | nil => rw [hp] at h; exact absurd h (by simp)
    | cons y ys =>
      rw [hp] at h
      simp at h
      exact ⟨[], y, by rw [hp]; exact List.mem_cons_self y ys, h⟩
  | cons c rest ih =>
    intro a h
    rw [reSearch] at h
    cases hp : p (c :: rest) with
    | nil =>
      rw [hp] at h
      exact ih h
    | cons y ys =>
      rw [hp] at h
      simp at h
      exact ⟨c :: rest, y, by rw [hp]; exact List.mem_cons_self y ys, h⟩

theorem isTokCh_not_ws {c : Char} (h : isTokCh c = true) : isPyWs c = false := by
  by_contra hne
  have ht : isPyWs c = true := by
    cases hw : isPyWs c
    · exact absurd hw hne
    · rfl
  have hc : ((((c = ' ' ∨ c = '\t') ∨ c = '\n') ∨ c = '\x0b') ∨ c = '\x0c') ∨ c = '\r' := by
    simpa only [isPyWs, Bool.or_eq_true, decide_eq_true_eq] using ht
  rcases hc with ((((rfl | rfl) | rfl) | rfl) | rfl) | rfl <;> exact absurd h (by decide)

theorem dropWhile_id {p : Char → Bool} {l : List Char} (h : ∀ c ∈ l, p c = false) :
    l.dropWhile p = l := by
  cases l with
  | nil => rfl
  | cons c cs => simp [List.dropWhile_cons, h c (by simp)]

theorem pyStripL_eq_self {l : List Char} (h : ∀ c ∈ l, isPyWs c = false) :
    pyStripL l = l := by
  unfold pyStripL
  rw [dropWhile_id h]
  rw [dropWhile_id (by intro c hc; exact h c (List.mem_reverse.mp hc))]
  exact List.reverse_reverse l

theorem procToken_ne_empty {g : List Char} (hlen : 3 ≤ g.length)
    (htok : ∀ c ∈ g, isTokCh c = true) : procToken g ≠ "" := by
  unfold procToken
  rw [pyStripL_eq_self (fun c hc => isTokCh_not_ws (htok c hc))]
  intro he
  have hdat : ((g.map Char.toUpper).map (fun c => if c = ' ' then '_' else c)) = [] :=
    congrArg String.data he
  simp at hdat
  rw [hdat] at hlen
  simp at hlen

/-- A line that yields an invoice value yields a truthy (non-empty) one:
group 2 has at least three token characters and the post-processing cannot
erase them. -/
theorem invoiceExtract_truthy {l : List Char} {v : String}
    (h : invoiceExtract l = some v) : pyTruthy (some v) = true := by
  unfold invoiceExtract at h
  cases hsearch : reSearch invoicePattern l with
  | none => rw [hsearch] at h; exact absurd h (by simp)
  | some g =>
    rw [hsearch] at h
    simp at h
    rcases reSearch_some hsearch with ⟨cs2, x, hx, hg⟩
    have hp := invoicePattern_group hx
    rw [hg] at hp
    have hne := procToken_ne_empty hp.1 hp.2
    rw [← h]
    simp [pyTruthy, hne]

/-- The invoice field after a line is truthy whenever it was already truthy
or the line matches the invoice pattern. -/
theorem processLine_inv_truthy (cst tlt : Option String) {s : ScanState} {l : List Char}
    (h : pyTruthy s.invoice = true ∨ (invoiceExtract l).isSome = true) :
    pyTruthy (processLine cst tlt s l).invoice = true := by
  unfold processLine
  rw [(stepTargeted_other tlt _ l).2.2.1, (stepCustom_other cst _ l).2.2.1,
    (stepReference_other _ l).2.2.1]
  have hmid : (stepAmount (stepDate s l) l).invoice = s.invoice := by
    rw [(stepAmount_other _ l).2.1, (stepDate_other _ l).2.1]
  by_cases hI : pyTruthy s.invoice = true
  · rw [stepInvoice_of_truthy l (by rw [hmid]; exact hI), hmid]
    exact hI
  · rcases h with h | h
    · exact absurd h hI
    · cases hIE : invoiceExtract l with
      | none => rw [hIE] at h; exact absurd h (by simp)
      | some v =>
        unfold stepInvoice
        rw [hmid, if_neg hI, hIE]
        exact invoiceExtract_truthy hIE

/-- The reference field stays null through a line whenever the invoice was
already truthy, or the line itself matches the invoice pattern, or the line
does not match the reference pattern. -/
theorem processLine_ref_none (cst tlt : Option String) {s : ScanState} {l : List Char}
    (href : s.reference = none)
    (hcases : pyTruthy s.invoice = true ∨ (invoiceExtract l).isSome = true ∨
      refExtract l = none) :
    (processLine cst tlt s l).reference = none := by
  unfold processLine
  rw [(stepTargeted_other tlt _ l).2.2.2.1, (stepCustom_other cst _ l).2.2.2.1]
  have hmid : (stepInvoice (stepAmount (stepDate s l) l) l).reference = s.reference := by
    rw [(stepInvoice_other _ l).2.2.1, (stepAmount_other _ l).2.2.1, (stepDate_other _ l).2.2.1]
  rcases hcases with hI | hIE | hre
  · have hinv : pyTruthy (stepInvoice (stepAmount (stepDate s l) l) l).invoice = true := by
      have hmid2 : (stepAmount (stepDate s l) l).invoice = s.invoice := by
        rw [(stepAmount_other _ l).2.1, (stepDate_other _ l).2.1]
      rw [stepInvoice_of_truthy l (by rw [hmid2]; exact hI), hmid2]
      exact hI
    unfold stepReference
    rw [if_pos (by rw [hinv]; exact Bool.or_true _)]
    rw [hmid]
    exact href
  · have hinv : pyTruthy (stepInvoice (stepAmount (stepDate s l) l) l).invoice = true := by
      have hmid2 : (stepAmount (stepDate s l) l).invoice = s.invoice := by
        rw [(stepAmount_other _ l).2.1, (stepDate_other _ l).2.1]
      by_cases hI : pyTruthy s.invoice = true
      · rw [stepInvoice_of_truthy l (by rw [hmid2]; exact hI), hmid2]
        exact hI
      · cases hIE2 : invoiceExtract l with
        | none => rw [hIE2] at hIE; exact absurd hIE (by simp)
        | some v =>
          unfold stepInvoice
          rw [hmid2, if_neg hI, hIE2]
          exact invoiceExtract_truthy hIE2
    unfold stepReference
    rw [if_pos (by rw [hinv]; exact Bool.or_true _)]
    rw [hmid]
    exact href
  · unfold stepReference
    split
    · rw [hmid]; exact href
    · rw [hre]
      rw [hmid]
      exact href

/-- The scan keeps the reference field null whenever the invoice is already
truthy, or every reference-matching line is preceded (weakly, in line order)
by an invoice-matching line. -/
theorem scanGo_ref_none (cst tlt : Option String) :
    ∀ (ls : List (List Char)) (s : ScanState),
      s.reference = none →
      (pyTruthy s.invoice = true ∨
        ∀ j, (hj : j < ls.length) → (refExtract (ls.get ⟨j, hj⟩)).isSome = true →
          ∃ i, ∃ hi : i < ls.length,
            i ≤ j ∧ (invoiceExtract (ls.get ⟨i, hi⟩)).isSome = true) →
      (scanGo cst tlt ls s).reference = none := by
  intro ls
  induction ls with
  | nil => intro s h _; exact h
  | cons l ls ih =>
    intro s href hinv
    have key :
        (processLine cst tlt s l).reference = none ∧
        (pyTruthy (processLine cst tlt s l).invoice = true ∨
          ∀ j, (hj : j < ls.length) → (refExtract (ls.get ⟨j, hj⟩)).isSome = true →
            ∃ i, ∃ hi : i < ls.length,
              i ≤ j ∧ (invoiceExtract (ls.get ⟨i, hi⟩)).isSome = true) := by
      by_cases hI : pyTruthy s.invoice = true
      · exact ⟨processLine_ref_none cst tlt href (Or.inl hI),
          Or.inl (processLine_inv_truthy cst tlt (Or.inl hI))⟩
      · rcases hinv with hI2 | H
        · exact absurd hI2 hI
        · by_cases hIE : (invoiceExtract l).isSome = true
          · exact ⟨processLine_ref_none cst tlt href (Or.inr (Or.inl hIE)),
              Or.inl (processLine_inv_truthy cst tlt (Or.inr hIE))⟩
          · have hre : refExtract l = none := by
              cases hr : refExtract l with
              | none => rfl
              | some w =>
                exfalso
                have h0 := H 0 (Nat.succ_pos _) (by
                  show (refExtract l).isSome = true
                  rw [hr]; rfl)
                rcases h0 with ⟨i, hi, hle, hIs⟩
                have hi0 : i = 0 := Nat.le_zero.mp hle
                subst hi0
                exact hIE hIs
            refine ⟨processLine_ref_none cst tlt href (Or.inr (Or.inr hre)), Or.inr ?_⟩
            intro j hj hr
            have hsucc := H (j + 1) (Nat.succ_lt_succ hj) (by
              show (refExtract (ls.get ⟨j, hj⟩)).isSome = true
              exact hr)
            rcases hsucc with ⟨i, hi, hle, hIs⟩
            cases i with
            | zero =>
              exact absurd hIs hIE
            | succ i2 =>
              exact ⟨i2, Nat.lt_of_succ_lt_succ hi, Nat.le_of_succ_le_succ hle, hIs⟩
    unfold scanGo
    by_cases hb : breakCond cst tlt (processLine cst tlt s l) = true
    · rw [if_pos hb]
      exact key.1
    · rw [if_neg hb]
      exact ih (processLine cst tlt s l) key.1 key.2

/-- C3 (counterexample): a reference pattern on line 1 and an invoice pattern
on line 2 — the extraction returns both fields non-null, so reference is not
null although invoice is non-null. -/
theorem c3_counterexample :
    (extract_metadata ("ref ABC123\ninvoice XYZ789") none none).invoice_number
      = some ("XYZ789") ∧
    (extract_metadata ("ref ABC123\ninvoice XYZ789") none none).reference_number
      = some ("ABC123") := by
  exact ⟨by decide, by decide⟩

/-- C3 (amended): the invoice priority is forward-only. For every text in
which each line matching the reference pattern is preceded (weakly, in line
order) by some line matching the invoice pattern, the returned
`reference_number` is null — in particular `reference_number` is null
whenever `invoice_number` is non-null for such texts. A reference found on a
strictly earlier line than every invoice match is kept. -/
theorem c3_invoice_priority (text : String) (cst tlt : Option String)
    (H : ∀ j, (hj : j < (splitNl text.toList).length) →
        (refExtract ((splitNl text.toList).get ⟨j, hj⟩)).isSome = true →
        ∃ i, ∃ hi : i < (splitNl text.toList).length,
          i ≤ j ∧ (invoiceExtract ((splitNl text.toList).get ⟨i, hi⟩)).isSome = true) :
    (extract_metadata text cst tlt).reference_number = none := by
  exact scanGo_ref_none cst tlt (splitNl text.toList) initState rfl (Or.inr H)

/-- C3 (witness): the priority theorem applied to a text whose invoice match
(line 1) precedes its reference match (line 2). -/
theorem c3_invoice_priority_witness :
    (extract_metadata ("invoice ABC123\nref XYZ789") none none).reference_number = none :=
  c3_invoice_priority ("invoice ABC123\nref XYZ789") none none
    (fun j _ _ => ⟨0, by decide, Nat.zero_le j, by decide⟩)

/-! ## Claim C7: the composed filename's character set -/

theorem toList_mk (l : List Char) : (String.mk l).toList = l := rfl

theorem string_toList_append (a b : String) : (a ++ b).toList = a.toList ++ b.toList := by
  cases a
  cases b
  rfl

/-- C7 (counterexample): the extension is appended unmodified, so an
extension containing a character outside `[A-Za-z0-9_.-]` survives into the
result — the universal claim over every extension is false. -/
theorem c7_counterexample :
    ¬ ((create_suggested_name
          { date := none, vendor := some ("Vendor"), amount := none,
            invoice_number := none, reference_number := none, custom_match := none,
            targeted_label := none, original_filename := none }
          ("$") ("") ("_") (some ["vendor"]) ("20260101") ("101010")).toList.all
        keepFileCh = true) := by
  decide

/-- C7 (amended): for every metadata record, prefix, separator, component
list and clock, and every extension whose characters all lie in
`[A-Za-z0-9_.-]`, the composed filename contains only characters from
`[A-Za-z0-9_.-]` — the core name is fully sanitised and only the verbatim
extension could introduce anything else. -/
theorem c7_filename_charset (metadata : ExtractionResult) (ext pfx sep : String)
    (comps : Option (List String)) (today nowTime : String)
    (hext : ext.toList.all keepFileCh = true) :
    (create_suggested_name metadata ext pfx sep comps today nowTime).toList.all
      keepFileCh = true := by
  unfold create_suggested_name
  rw [string_toList_append]
  rw [List.all_append]
  refine Bool.and_eq_true_iff.mpr ⟨?_, hext⟩
  unfold sanitizeFileName
  rw [toList_mk]
  rw [List.all_eq_true]
  intro c hc
  rcases List.mem_map.mp hc with ⟨d, hd, rfl⟩
  have hdk := (List.mem_filter.mp hd).2
  by_cases hsp : d = ' '
  · subst hsp
    decide
  · rw [if_neg hsp]
    exact hdk

/-- C7 (witness): the charset theorem applied at a concrete record and the
extension `.pdf`. -/
theorem c7_filename_charset_witness :
    ((".pdf" : String).toList.all keepFileCh = true) ∧
    ((create_suggested_name
        { date := none, vendor := some ("Vendor"), amount := none,
          invoice_number := none, reference_number := none, custom_match := none,
          targeted_label := none, original_filename := none }
        (".pdf") ("") ("_") (some ["vendor"]) ("20260101") ("101010")).toList.all
      keepFileCh = true) :=
  ⟨by decide, c7_filename_charset _ _ _ _ _ _ _ (by decide)⟩

/-! ## Claim C8: the vendor guarantee -/

/-- C8: for every text (and terms), the vendor field is non-null and
non-empty — when the sanitised first line is empty the fixed placeholder
`OCR_Scan` is substituted — and on the empty text every other field is null. -/
theorem c8_vendor_guarantee :
    (∀ (text : String) (cst tlt : Option String),
        pyTruthy (extract_metadata text cst tlt).vendor = true) ∧
    (∀ (text : String) (cst tlt : Option String),
        vendorSanitize (firstLineOf text) = "" →
          (extract_metadata text cst tlt).vendor = some ("OCR_Scan")) ∧
    extract_metadata ("") none none =
      { date := none, vendor := some ("OCR_Scan"), amount := none,
        invoice_number := none, reference_number := none, custom_match := none,
        targeted_label := none, original_filename := none } := by
  have hv : ∀ text : String, pyTruthy (vendorOf text) = true := by
    intro text
    unfold vendorOf
    cases hsp : splitNl text.toList with
    | nil => exact absurd hsp (splitNl_ne_nil _)
    | cons l t =>
      by_cases hvs : vendorSanitize l = ""
      · simp [pyTruthy, hvs]
      · simp [pyTruthy, hvs]
  have hfb : ∀ text : String, vendorSanitize (firstLineOf text) = "" →
      vendorOf text = some ("OCR_Scan") := by
    intro text h
    unfold vendorOf
    unfold firstLineOf at h
    cases hsp : splitNl text.toList with
    | nil => exact absurd hsp (splitNl_ne_nil _)
    | cons l t =>
      rw [hsp] at h
      simp [pyTruthy, h]
  refine ⟨fun text cst tlt => hv text, fun text cst tlt h => hfb text h, ?_⟩
  decide

/-- C8 (witness): the fallback branch of the vendor guarantee applied to a
text whose first line sanitises to the empty string. -/
theorem c8_vendor_guarantee_witness :
    vendorSanitize (firstLineOf ("!!!\nfoo")) = "" ∧
    (extract_metadata ("!!!\nfoo") none none).vendor = some ("OCR_Scan") :=
  ⟨by decide, c8_vendor_guarantee.2.1 ("!!!\nfoo") none none (by decide)⟩

/-! ## Claim C9: no exception escapes `extract_metadata` -/

theorem digit_not_meta {c : Char} (h : c.isDigit = true) : isRegexMeta c = false := by
  by_contra hne
  have ht : isRegexMeta c = true := by
    cases hm : isRegexMeta c
    · exact absurd hm hne
    · rfl
  have hc :
      ((((((((((((c = '.' ∨ c = '^') ∨ c = '$') ∨ c = '*') ∨ c = '+') ∨ c = '?') ∨
        c = '{') ∨ c = '}') ∨ c = '[') ∨ c = ']') ∨ c = '\\') ∨ c = '|') ∨ c = '(') ∨
        c = ')' := by
    simpa only [isRegexMeta, Bool.or_eq_true, decide_eq_true_eq] using ht
  rcases hc with
    ((((((((((((rfl | rfl) | rfl) | rfl) | rfl) | rfl) | rfl) | rfl) | rfl) | rfl) |
      rfl) | rfl) | rfl) | rfl <;>
    exact absurd h (by decide)

/-- The custom-search step never raises: a digit-only term contains no regex
metacharacter, and the non-numeric branch escapes the term. -/
theorem customStep_ok (term : String) (l : List Char) :
    ∃ o, customStep term l = Except.ok o := by
  unfold customStep
  by_cases hd : pyIsdigit term = true
  · rw [if_pos hd]
    have hall : ∀ c ∈ term.toList, Char.isDigit c = true := by
      have h2 : term.toList.all Char.isDigit = true :=
        (Bool.and_eq_true_iff.mp (by simpa only [pyIsdigit] using hd)).2
      exact fun c hc => List.all_eq_true.mp h2 c hc
    have hmeta : term.toList.any isRegexMeta = false := by
      cases hm : term.toList.any isRegexMeta
      · rfl
      · exfalso
        rcases List.any_eq_true.mp hm with ⟨c, hc, hmc⟩
        rw [digit_not_meta (hall c hc)] at hmc
        exact Bool.false_ne_true hmc
    rw [if_neg (by rw [hmeta]; exact Bool.false_ne_true)]
    exact ⟨_, rfl⟩
  · rw [if_neg hd]
    exact ⟨_, rfl⟩

/-- With the `except` clauses removed, a line body still never errors and
agrees with the guarded line body. -/
theorem processLineE_ok (cst tlt : Option String) (s : ScanState) (l : List Char) :
    processLineE cst tlt s l = Except.ok (processLine cst tlt s l) := by
  unfold processLineE processLine
  generalize stepReference (stepInvoice (stepAmount (stepDate s l) l) l) l = s4
  have hcust :
      (match cst with
        | none => Except.ok s4
        | some term =>
          if term = "" then Except.ok s4
          else if pyTruthy s4.custom then Except.ok s4
          else
            match customStep term l with
            | Except.error e => Except.error e
            | Except.ok none => Except.ok s4
            | Except.ok (some g) =>
              let v := if g = "" then g
                       else String.mk (pyStripUnderscoreL (sanitizeCustom g).toList)
              Except.ok { s4 with custom := some v })
      = Except.ok (stepCustom cst s4 l) := by
    cases cst with
    | none => rfl
    | some term =>
      by_cases ht : term = ""
      · simp [stepCustom, ht]
      · by_cases hc : pyTruthy s4.custom = true
        · simp [stepCustom, ht, hc]
        · rcases customStep_ok term l with ⟨o, ho⟩
          cases o with
          | none => simp [stepCustom, ht, hc, ho]
          | some g => simp [stepCustom, ht, hc, ho]
  show (match
      (match cst with
        | none => Except.ok s4
        | some term =>
          if term = "" then Except.ok s4
          else if pyTruthy s4.custom then Except.ok s4
          else
            match customStep term l with
            | Except.error e => Except.error e
            | Except.ok none => Except.ok s4
            | Except.ok (some g) =>
              let v := if g = "" then g
                       else String.mk (pyStripUnderscoreL (sanitizeCustom g).toList)
              Except.ok { s4 with custom := some v }) with
    | Except.error e => Except.error e
    | Except.ok s5 =>
      match tlt with
      | none => Except.ok s5
      | some term =>
        if term = "" then Except.ok s5
        else if pyTruthy s5.targeted then Except.ok s5
        else
          match targetedStep term l with
          | Except.error e => Except.error e
          | Except.ok none => Except.ok s5
          | Except.ok (some g) =>
            let t := sanitizeAlnum (pyStripS g)
            Except.ok { s5 with targeted := if t = "" then none else some t })
    = Except.ok (stepTargeted tlt (stepCustom cst s4 l) l)
  rw [hcust]
  cases tlt with
  | none => rfl
  | some term =>
    by_cases ht : term = ""
    · simp [stepTargeted, ht]
    · by_cases hTt : pyTruthy (stepCustom cst s4 l).targeted = true
      · simp [stepTargeted, ht, hTt]
      · cases hts : targetedStep term l with
        | error e => exact absurd hts (by simp [targetedStep])
        | ok o =>
          cases o with
          | none => simp [stepTargeted, ht, hTt, hts]
          | some g => simp [stepTargeted, ht, hTt, hts]

/-- With the `except` clauses removed, the whole scan still never errors. -/
theorem scanGoE_ok (cst tlt : Option String) :
    ∀ (ls : List (List Char)) (s : ScanState),
      scanGoE cst tlt ls s = Except.ok (scanGo cst tlt ls s) := by
  intro ls
  induction ls with
  | nil => intro s; rfl
  | cons l ls ih =>
    intro s
    unfold scanGoE scanGo
    rw [processLineE_ok]
    by_cases hb : breakCond cst tlt (processLine cst tlt s l) = true
    · simp [hb]
    · simp [hb, ih]

/-- C9: for every text and every pair of optional user-supplied terms,
`extract_metadata` never raises — even with the `except` clauses removed no
per-field step errors, and the extraction always completes with the full
result record. (In the embedding an `re.error` from the one pattern built
from unescaped user input is modelled as `Except.error`; digit-only terms
cannot produce one, and the source's `try/except` would absorb it anyway.) -/
theorem c9_no_exception (text : String) (cst tlt : Option String) :
    extract_metadata_noCatch text cst tlt = Except.ok (extract_metadata text cst tlt) := by
  unfold extract_metadata_noCatch
  rw [scanGoE_ok]
  rfl

/-! ## Claim C10: the `original_filename` token -/

/-- C10: for every metadata record lacking an `original_filename` key,
composing with the single component `original_filename` and an empty prefix
yields the fixed string `file` followed by the extension. -/
theorem c10_original_filename_default (metadata : ExtractionResult)
    (ext sep today nowTime : String) (h : metadata.original_filename = none) :
    create_suggested_name metadata ext ("") sep (some ["original_filename"]) today nowTime
      = "file" ++ ext := by
  rcases metadata with ⟨d, v, a, i, r, c, t, o⟩
  cases h
  rfl

/-- C10 (witness): the default applied to a concrete record with no
`original_filename` key and the extension `.pdf`. -/
theorem c10_original_filename_default_witness :
    ({ date := none, vendor := none, amount := none, invoice_number := none,
       reference_number := none, custom_match := none, targeted_label := none,
       original_filename := none } : ExtractionResult).original_filename = none ∧
    create_suggested_name
        { date := none, vendor := none, amount := none, invoice_number := none,
          reference_number := none, custom_match := none, targeted_label := none,
          original_filename := none }
        (".pdf") ("") ("_") (some ["original_filename"]) ("20260101") ("101010")
      = "file" ++ ".pdf" :=
  ⟨rfl, c10_original_filename_default _ _ _ _ _ rfl⟩

end Bocrren
